import Mathlib

/-!
# double_pendulum: host-side orchestration of the per-pixel pendulum field

A shallow embedding of `src/main.cpp`: the State Buffer initialisation loop,
the mouse picking callback, the per-frame simulation loop and the sequence of
GL commands one frame issues.

Conventions of the embedding.

* `size_t` values are `Nat`, and every `size_t` product or sum the source
  computes is reduced with `sizeT` (modulo `2^64`).
* `float` / `double` values are read exactly: a finite value is a rational
  number, and `none` stands for a non-finite result (NaN or an infinity),
  which is what a division by zero produces and which every later operation
  of the chains below propagates.
* The compile-time constants of the source are the fields of `Config`;
  `sourceConfig` holds the values written in the file.
* The construction of a `std::vector` can throw; `main` has no handler, so a
  throw ends the program. The allocation limit of the run is the parameter
  `capacity`, and the vector of the State Buffer is an `Option`.
* `pendulumData` embeds the block of lines 133-165 as it runs once the
  start-up of lines 89-123 has been passed.
-/

namespace DoublePendulum

/-! ## Machine numbers -/

/-- Reduction of a natural number to the range of `size_t` (64 bits). -/
def sizeT (n : Nat) : Nat := n % 2 ^ 64

/-- Conversion to `GLuint` (32 bits), as done implicitly at a GL call. -/
def toGLuint (n : Nat) : Nat := n % 2 ^ 32

/-- A `float` or `double` read exactly; `none` is a non-finite value. -/
abbrev FloatVal := Option ℚ

/-- Floating addition, exact on finite operands. -/
def fadd (a b : FloatVal) : FloatVal :=
  match a, b with
  | some x, some y => some (x + y)
  | _, _ => none

/-- Floating subtraction, exact on finite operands. -/
def fsub (a b : FloatVal) : FloatVal :=
  match a, b with
  | some x, some y => some (x - y)
  | _, _ => none

/-- Floating multiplication, exact on finite operands. -/
def fmul (a b : FloatVal) : FloatVal :=
  match a, b with
  | some x, some y => some (x * y)
  | _, _ => none

/-- Floating division: dividing by zero gives a non-finite value
(`0/0` is NaN, `x/0` an infinity). -/
def fdiv (a b : FloatVal) : FloatVal :=
  match a, b with
  | some x, some y => if y = 0 then none else some (x / y)
  | _, _ => none

/-- Truncation toward zero of an exact value. -/
def truncToInt (v : ℚ) : Int := if 0 ≤ v then ⌊v⌋ else ⌈v⌉

/-- The cast `static_cast<size_t>(v)` of a `double`: the value is truncated
toward zero; the cast is undefined (`none`) when the truncated value is not
representable in `size_t`. -/
def doubleToSizeT (v : ℚ) : Option Nat :=
  if 0 ≤ truncToInt v ∧ truncToInt v < 2 ^ 64 then some (truncToInt v).toNat else none

/-! ## Constants of the source -/

/-- The compile-time constants of `main.cpp` (lines 9-16). -/
structure Config where
  WIDTH : Nat
  HEIGHT : Nat
  SIMULATION_STEPS_PER_FRAME : Nat
  ZOOM : ℚ
  CENTER_X : ℚ
  CENTER_Y : ℚ
  deriving DecidableEq

/-- The values the source file gives to its constants. -/
def sourceConfig : Config :=
  { WIDTH := 800, HEIGHT := 800, SIMULATION_STEPS_PER_FRAME := 100,
    ZOOM := 1, CENTER_X := 0, CENTER_Y := 0 }

/-- The literal `3.14159265358979` of the initialisation loop. -/
def PI_DOUBLE : ℚ := 314159265358979 / 100000000000000

/-- The literal `3.14159f` of the mouse callback. -/
def PI_FLOAT : ℚ := 314159 / 100000

/-- The literal `0.01f` of the simulation loop (`dt`). -/
def DT : ℚ := 1 / 100

/-! ## State Buffer initialisation (main.cpp lines 133-165) -/

/-- Lines 146, 150 and 154: the value stored in slot 0 of a cell, computed
from the column `col` of the cell. -/
def initAngleX (cfg : Config) (width col : Nat) : FloatVal :=
  let normalizedX := fsub (fdiv (fmul (some 2) (some (col : ℚ))) (fsub (some (width : ℚ)) (some 1))) (some 1)
  let zoomedX := fadd (some cfg.CENTER_X) (fdiv normalizedX (some cfg.ZOOM))
  fmul zoomedX (some PI_DOUBLE)

/-- Lines 147, 151 and 155: the value stored in slot 1 of a cell, computed
from the row `row` of the cell. -/
def initAngleY (cfg : Config) (height row : Nat) : FloatVal :=
  let normalizedY := fsub (fdiv (fmul (some 2) (some (row : ℚ))) (fsub (some (height : ℚ)) (some 1))) (some 1)
  let zoomedY := fadd (some cfg.CENTER_Y) (fdiv normalizedY (some cfg.ZOOM))
  fmul zoomedY (some PI_DOUBLE)

/-- The five assignments `pendulumData[i*5 + k] = ...` of lines 154-158 for
the loop index `i`, as pairs of the index assigned and the value stored. -/
def cellAssignments (cfg : Config) (width height i : Nat) : List (Nat × FloatVal) :=
  let row := i / width
  let col := i % width
  [ (sizeT (sizeT (i * 5) + 0), initAngleX cfg width col),
    (sizeT (sizeT (i * 5) + 1), initAngleY cfg height row),
    (sizeT (sizeT (i * 5) + 2), some 0),
    (sizeT (sizeT (i * 5) + 3), some 0),
    (sizeT (sizeT (i * 5) + 4), some 0) ]

/-- One assignment `pendulumData[j] = v`. -/
def assign (data : List FloatVal) (a : Nat × FloatVal) : List FloatVal :=
  data.set a.1 a.2

/-- The assignments the loop of lines 141-159 performs when it runs for
`i = 0 .. numPendulums - 1`, in the order in which it performs them. -/
def initAssignments (cfg : Config) (width height numPendulums : Nat) : List (Nat × FloatVal) :=
  (List.range numPendulums).flatMap (cellAssignments cfg width height)

/-- An upper bound on the number of elements of a `std::vector<float>`: no
object exceeds `PTRDIFF_MAX = 2^63 - 1` bytes and a `float` has 4 bytes, so
at most `2^61 - 1` elements (the value of `max_size()` in libstdc++). -/
def VECTOR_MAX_SIZE : Nat := 2 ^ 61 - 1

/-- The largest element count for which `std::vector<float>(n)` is
constructed, in a run whose allocator can serve `capacity` scalars: a larger
request throws (`std::length_error` above `max_size()`, `std::bad_alloc` when
memory is short). -/
def allocLimit (capacity : Nat) : Nat := min capacity VECTOR_MAX_SIZE

/-- The constructor `std::vector<float>(n)` of line 138: `n` zeros, or `none`
when it throws. `main` has no handler, so a throw ends the program before any
buffer exists. -/
def vectorOfZeros (capacity n : Nat) : Option (List FloatVal) :=
  if n ≤ allocLimit capacity then some (List.replicate n (some (0 : ℚ))) else none

/-- Lines 135-159: the vector `pendulumData` handed to `glBufferData`, or
`none` when its construction throws. The vector is created with
`numPendulums * 5` zeros and the loop performs its assignments on it, for
`i = 0 .. numPendulums - 1`. (An assignment outside the vector, possible only
when `numPendulums * 5` has wrapped, is undefined in the source; here it
leaves the vector unchanged.) -/
def pendulumData (cfg : Config) (capacity : Nat) : Option (List FloatVal) :=
  let width := cfg.WIDTH
  let height := cfg.HEIGHT
  let numPendulums := sizeT (width * height)
  (vectorOfZeros capacity (sizeT (numPendulums * 5))).map fun data =>
    (initAssignments cfg width height numPendulums).foldl assign data

/-- The indices assigned by the loop of lines 141-159, in the order in which
the loop assigns them. -/
def assignedIndices (cfg : Config) : List Nat :=
  (initAssignments cfg cfg.WIDTH cfg.HEIGHT (sizeT (cfg.WIDTH * cfg.HEIGHT))).map Prod.fst

/-- The body of the loop of lines 141-159 for the index `i`, applied to the
vector `data`. -/
def initCell (cfg : Config) (width height : Nat) (data : List FloatVal) (i : Nat) :
    List FloatVal :=
  (cellAssignments cfg width height i).foldl assign data

/-- The five values the loop stores for the index `i`, in slot order. -/
def cellValues (cfg : Config) (width height i : Nat) : List FloatVal :=
  (cellAssignments cfg width height i).map Prod.snd

/-- The records of the cells in index order: the five values of index 0, then
those of index 1, and so on up to `WIDTH * HEIGHT - 1`. -/
def recordsInOrder (cfg : Config) : List FloatVal :=
  (List.range (cfg.WIDTH * cfg.HEIGHT)).flatMap (cellValues cfg cfg.WIDTH cfg.HEIGHT)

/-- An allocator that can serve `2^32` scalars (16 GiB), more than the
3 200 000 scalars of the source's 800 x 800 field. -/
def ampleCapacity : Nat := 2 ^ 32

/-- Constants whose buffer, `5 * 2^60` scalars, is above the limit of a
vector while no `size_t` product wraps: `WIDTH = HEIGHT = 2^30`. -/
def bigConfig : Config := { sourceConfig with WIDTH := 2 ^ 30, HEIGHT := 2 ^ 30 }

/-- The Y angle of the cell in row `row` as the specification's testable
property writes it, `(2*(height - 1 - row)/(height - 1) - 1) * pi`, with the
initialisation loop's constant for pi. -/
def specAngleY (height row : Nat) : ℚ :=
  (2 * ((height : ℚ) - 1 - row) / ((height : ℚ) - 1) - 1) * PI_DOUBLE

/-- The X angle of the cell in column `col` as the specification writes it,
`(2*col/(width - 1) - 1) * pi`, with the initialisation loop's constant for pi. -/
def specAngleX (width col : Nat) : ℚ :=
  (2 * (col : ℚ) / ((width : ℚ) - 1) - 1) * PI_DOUBLE

/-- The constants of the specification's end-to-end scenario:
`width = height = 4`, `zoom = 1`, `center = (0,0)`. -/
def scenarioConfig : Config :=
  { WIDTH := 4, HEIGHT := 4, SIMULATION_STEPS_PER_FRAME := 100,
    ZOOM := 1, CENTER_X := 0, CENTER_Y := 0 }

/-- The constants of the source with a one-pixel-wide field: `WIDTH = 1`,
`HEIGHT = 2`. -/
def narrowConfig : Config := { sourceConfig with WIDTH := 1, HEIGHT := 2 }

/-- Constants whose product `WIDTH * HEIGHT` exceeds the range of `size_t`:
`WIDTH = 2^62 + 800`, `HEIGHT = 4`, the product being `2^64 + 3200`. -/
def wrapConfig : Config := { sourceConfig with WIDTH := 2 ^ 62 + 800, HEIGHT := 4 }

/-! ## Mouse picking (main.cpp lines 22-58) -/

/-- Value of `GLFW_MOUSE_BUTTON_LEFT` in the GLFW header. -/
def GLFW_MOUSE_BUTTON_LEFT : Int := 0

/-- Value of `GLFW_PRESS` in the GLFW header. -/
def GLFW_PRESS : Int := 1

/-- What the callback prints for one click. -/
structure PickReport where
  screenX : ℚ
  screenY : ℚ
  worldX : FloatVal
  worldY : FloatVal
  angleX : FloatVal
  angleY : FloatVal
  pendulumIndex : Option Nat
  deriving DecidableEq

/-- The callback `mouse_button_callback`. `cursorX`, `cursorY` are what
`glfwGetCursorPos` returns and `width`, `height` what `glfwGetWindowSize`
returns. The result is `none` when the event is not a press of the left
button (nothing is printed). `pendulumIndex` is `none` when one of the casts
to `size_t` is undefined. -/
def mouse_button_callback (cfg : Config) (button action : Int) (cursorX cursorY : ℚ)
    (width height : Int) : Option PickReport :=
  if button = GLFW_MOUSE_BUTTON_LEFT ∧ action = GLFW_PRESS then
    let xpos := cursorX
    let ypos := (height : ℚ) - cursorY
    let normalizedX := fsub (fdiv (fmul (some 2) (some xpos)) (fsub (some (width : ℚ)) (some 1))) (some 1)
    let normalizedY := fsub (fdiv (fmul (some 2) (some ypos)) (fsub (some (height : ℚ)) (some 1))) (some 1)
    let worldX := fadd (some cfg.CENTER_X) (fdiv normalizedX (some cfg.ZOOM))
    let worldY := fadd (some cfg.CENTER_Y) (fdiv normalizedY (some cfg.ZOOM))
    let angleX := fmul worldX (some PI_FLOAT)
    let angleY := fmul worldY (some PI_FLOAT)
    let pendulumRow := doubleToSizeT ypos
    let pendulumCol := doubleToSizeT xpos
    let pendulumIndex :=
      match pendulumRow, pendulumCol with
      | some r, some c => some (sizeT (sizeT (r * cfg.WIDTH) + c))
      | _, _ => none
    some { screenX := xpos, screenY := ypos, worldX := worldX, worldY := worldY,
           angleX := angleX, angleY := angleY, pendulumIndex := pendulumIndex }
  else none

/-! ## The render loop (main.cpp lines 249-303) -/

/-- The two GL programs of the source. -/
inductive Program
  | computeProgram
  | shaderProgram
  deriving DecidableEq, Repr

/-- The uniform locations the source queries. -/
inductive Uniform
  | u_width
  | u_height
  | u_simulationTime
  | u_resolution
  | u_time
  | u_mouse
  | u_pendulumData
  deriving DecidableEq, Repr

/-- Internal formats passed to `glTexBuffer`. -/
inductive TexFormat
  | GL_RGBA32F
  | GL_R32F
  deriving DecidableEq, Repr

/-- The calls one iteration of the render loop makes, with the arguments that
vary. `glMemoryBarrier` carries the two bits the source uses:
`GL_SHADER_STORAGE_BARRIER_BIT` and `GL_TEXTURE_FETCH_BARRIER_BIT`. -/
inductive GLCommand
  | glViewport (x y w h : Int)
  | glClear
  | glUseProgram (p : Program)
  | glUniform1f (loc : Uniform) (v : ℚ)
  | glUniform1ui (loc : Uniform) (v : Nat)
  | glUniform1i (loc : Uniform) (v : Int)
  | glUniform2f (loc : Uniform) (x y : ℚ)
  | glDispatchCompute (x y z : Nat)
  | glMemoryBarrier (shaderStorage textureFetch : Bool)
  | glBindTexture
  | glTexBuffer (format : TexFormat)
  | glBindVertexArray
  | glDrawElements (count : Nat)
  | glfwSwapBuffers
  | glfwPollEvents
  deriving DecidableEq

open GLCommand Program Uniform TexFormat

/-- The first two arguments of `glDispatchCompute` as the source computes
them (lines 272-273), in `size_t`. For operands below `2^64` the sum cannot
wrap, so no reduction is applied. -/
def dispatchGrid (WIDTH HEIGHT : Nat) : Nat × Nat :=
  (WIDTH / 16 + (if WIDTH % 16 = 0 then 0 else 1),
   HEIGHT / 16 + (if HEIGHT % 16 = 0 then 0 else 1))

/-- One iteration of the loop of lines 264-275: the new value of
`simulationTime` and the calls made. -/
def simulationStep (cfg : Config) (simulationTime : ℚ) : ℚ × List GLCommand :=
  let dt := DT
  let simulationTime := simulationTime + dt
  (simulationTime,
   [ glUniform1f u_simulationTime simulationTime,
     glUniform1ui u_width (toGLuint cfg.WIDTH),
     glUniform1ui u_height (toGLuint cfg.HEIGHT),
     glDispatchCompute (toGLuint (dispatchGrid cfg.WIDTH cfg.HEIGHT).1)
       (toGLuint (dispatchGrid cfg.WIDTH cfg.HEIGHT).2) 1,
     glMemoryBarrier true false ])

/-- The loop `for (step = 0; step < SIMULATION_STEPS_PER_FRAME; step++)`,
run for `steps` iterations. -/
def simulationLoop (cfg : Config) : Nat → ℚ → ℚ × List GLCommand
  | 0, simulationTime => (simulationTime, [])
  | steps + 1, simulationTime =>
    let s := simulationStep cfg simulationTime
    let r := simulationLoop cfg steps s.1
    (r.1, s.2 ++ r.2)

/-- What one frame reads from GLFW. -/
structure FrameInput where
  width : Int
  height : Int
  mouseX : ℚ
  mouseY : ℚ
  time : ℚ
  deriving DecidableEq

/-- One iteration of the render loop (lines 250-302): the value of
`simulationTime` after the frame and the calls made, in order. -/
def renderFrame (cfg : Config) (inp : FrameInput) (simulationTime : ℚ) : ℚ × List GLCommand :=
  let mouseY := (inp.height : ℚ) - inp.mouseY
  let sim := simulationLoop cfg cfg.SIMULATION_STEPS_PER_FRAME simulationTime
  (sim.1,
   [ glViewport 0 0 inp.width inp.height, glClear, glUseProgram computeProgram ]
   ++ sim.2
   ++ [ glMemoryBarrier true true,
        glBindTexture,
        glTexBuffer GL_R32F,
        glUseProgram shaderProgram,
        glUniform2f u_mouse inp.mouseX mouseY,
        glViewport 0 0 inp.width inp.height,
        glUseProgram shaderProgram,
        glUniform2f u_resolution inp.width inp.height,
        glUniform1f u_time inp.time,
        glClear,
        glUseProgram shaderProgram,
        glUniform1i u_pendulumData 0,
        glBindVertexArray,
        glDrawElements 6,
        glfwSwapBuffers,
        glfwPollEvents ])

/-- The value of `simulationTime` after `frames` iterations of the render
loop, the inputs of the frames being given by `inputs`. -/
def simulationTimeAfter (cfg : Config) (inputs : Nat → FrameInput) : Nat → ℚ → ℚ
  | 0, simulationTime => simulationTime
  | frames + 1, simulationTime =>
    (renderFrame cfg (inputs frames) (simulationTimeAfter cfg inputs frames simulationTime)).1

/-- Whether a call is a compute dispatch. -/
def GLCommand.isDispatch : GLCommand → Bool
  | glDispatchCompute _ _ _ => true
  | _ => false

/-- Whether a call re-binds the buffer as a texture (`glTexBuffer`). -/
def GLCommand.isTexBuffer : GLCommand → Bool
  | glTexBuffer _ => true
  | _ => false

/-! ## Facts about the dispatch grid -/

theorem simulationLoop_time (cfg : Config) (n : Nat) (t : ℚ) :
    (simulationLoop cfg n t).1 = t + n * DT := by
  induction n generalizing t with
  | zero => simp [simulationLoop]
  | succ k ih =>
    simp only [simulationLoop, ih, simulationStep]
    push_cast
    ring

theorem simulationLoop_length (cfg : Config) (n : Nat) (t : ℚ) :
    (simulationLoop cfg n t).2.length = 5 * n := by
  induction n generalizing t with
  | zero => simp [simulationLoop]
  | succ k ih =>
    simp only [simulationLoop, List.length_append, ih, simulationStep, List.length_cons,
      List.length_nil]
    omega

theorem simulationLoop_countDispatch (cfg : Config) (n : Nat) (t : ℚ) :
    (simulationLoop cfg n t).2.countP GLCommand.isDispatch = n := by
  induction n generalizing t with
  | zero => simp [simulationLoop]
  | succ k ih =>
    simp only [simulationLoop, List.countP_append, ih, simulationStep]
    simp [List.countP_cons, GLCommand.isDispatch]
    omega

theorem simulationLoop_dispatch (cfg : Config) (n : Nat) (t : ℚ) (i : Nat) (x y z : Nat)
    (h : (simulationLoop cfg n t).2[i]? = some (glDispatchCompute x y z)) :
    i + 1 < 5 * n ∧ (simulationLoop cfg n t).2[i + 1]? = some (glMemoryBarrier true false) := by
  induction n generalizing t i with
  | zero => simp [simulationLoop] at h
  | succ k ih =>
    simp only [simulationLoop] at h ⊢
    by_cases hi : i < 5
    · have h5 : (simulationStep cfg t).2.length = 5 := rfl
      rw [List.getElem?_append_left (by omega)] at h
      interval_cases i <;> simp [simulationStep] at h ⊢
      omega
    · have h5 : (simulationStep cfg t).2.length = 5 := rfl
      rw [List.getElem?_append_right (by omega)] at h
      rw [List.getElem?_append_right (by omega)]
      rw [h5] at h ⊢
      obtain ⟨h1, h2⟩ := ih _ _ h
      refine ⟨by omega, ?_⟩
      rw [← h2]
      congr 1
      omega

theorem simulationLoop_other (cfg : Config) (n : Nat) (t : ℚ) :
    (simulationLoop cfg n t).2.countP GLCommand.isTexBuffer = 0 ∧
    (simulationLoop cfg n t).2.count (glMemoryBarrier true true) = 0 ∧
    (simulationLoop cfg n t).2.count (glDrawElements 6) = 0 := by
  induction n generalizing t with
  | zero => simp [simulationLoop]
  | succ k ih =>
    simp only [simulationLoop, List.countP_append, List.count_append, ih, simulationStep]
    simp [List.countP_cons, GLCommand.isTexBuffer, List.count_cons]

/-- C4: with exact arithmetic, a frame of 100 sub-steps adds exactly 1 to
`simulationTime`; `n` sub-steps from 0 give `n * dt`; the value grows strictly
with the number of sub-steps and with the number of frames, and after `k`
frames from 0 it is `k` (nothing resets it). -/
theorem simulationTime_advance (cfg : Config) (h100 : cfg.SIMULATION_STEPS_PER_FRAME = 100)
    (inputs : Nat → FrameInput) (inp : FrameInput) (t : ℚ) (n : Nat) :
    (renderFrame cfg inp t).1 = t + 1 ∧
    (simulationLoop cfg n 0).1 = n * DT ∧
    t < (simulationStep cfg t).1 ∧
    (∀ a b : Nat, a < b → (simulationLoop cfg a t).1 < (simulationLoop cfg b t).1) ∧
    simulationTimeAfter cfg inputs n 0 = n ∧
    (∀ a b : Nat, a < b →
      simulationTimeAfter cfg inputs a t < simulationTimeAfter cfg inputs b t) := by
  have hframe : ∀ (i : FrameInput) (s : ℚ), (renderFrame cfg i s).1 = s + 1 := by
    intro i s
    simp only [renderFrame, simulationLoop_time, h100, DT]
    norm_num
  have hafter : ∀ (k : Nat) (s : ℚ), simulationTimeAfter cfg inputs k s = s + k := by
    intro k s
    induction k with
    | zero => simp [simulationTimeAfter]
    | succ j ih =>
      simp only [simulationTimeAfter, hframe, ih]
      push_cast
      ring
  refine ⟨hframe inp t, ?_, ?_, ?_, ?_, ?_⟩
  · simp [simulationLoop_time]
  · simp [simulationStep, DT]
  · intro a b hab
    simp only [simulationLoop_time, DT]
    have : (a : ℚ) < b := by exact_mod_cast hab
    linarith
  · simp [hafter]
  · intro a b hab
    simp only [hafter]
    have : (a : ℚ) < b := by exact_mod_cast hab
    linarith

/-- C4 (witness): the constants of the source have 100 sub-steps per frame,
and one frame from 0 gives 1. -/
theorem simulationTime_advance_witness :
    sourceConfig.SIMULATION_STEPS_PER_FRAME = 100 ∧
    (renderFrame sourceConfig ⟨800, 800, 0, 0, 0⟩ 0).1 = 0 + 1 :=
  ⟨rfl, (simulationTime_advance sourceConfig rfl (fun _ => ⟨800, 800, 0, 0, 0⟩)
    ⟨800, 800, 0, 0, 0⟩ 0 0).1⟩

/-- C5: in the calls of one frame there are exactly
`SIMULATION_STEPS_PER_FRAME` dispatches, each immediately followed by a
barrier on shader storage alone; the loop's calls end at position
`3 + 5 * steps`, where the single barrier on shader storage and texture fetch
stands; `glTexBuffer` occurs once, two calls after that barrier, and the single
draw comes after it. -/
theorem frame_command_order (cfg : Config) (inp : FrameInput) (t : ℚ) :
    (renderFrame cfg inp t).2.countP GLCommand.isDispatch = cfg.SIMULATION_STEPS_PER_FRAME ∧
    (∀ i x y z, (renderFrame cfg inp t).2[i]? = some (glDispatchCompute x y z) →
      (renderFrame cfg inp t).2[i + 1]? = some (glMemoryBarrier true false) ∧
      i + 1 < 3 + 5 * cfg.SIMULATION_STEPS_PER_FRAME) ∧
    (renderFrame cfg inp t).2[3 + 5 * cfg.SIMULATION_STEPS_PER_FRAME]?
      = some (glMemoryBarrier true true) ∧
    (renderFrame cfg inp t).2.count (glMemoryBarrier true true) = 1 ∧
    (renderFrame cfg inp t).2[3 + 5 * cfg.SIMULATION_STEPS_PER_FRAME + 2]?
      = some (glTexBuffer GL_R32F) ∧
    (renderFrame cfg inp t).2.countP GLCommand.isTexBuffer = 1 ∧
    (renderFrame cfg inp t).2[3 + 5 * cfg.SIMULATION_STEPS_PER_FRAME + 13]?
      = some (glDrawElements 6) ∧
    (renderFrame cfg inp t).2.count (glDrawElements 6) = 1 := by
  obtain ⟨ho1, ho2, ho3⟩ := simulationLoop_other cfg cfg.SIMULATION_STEPS_PER_FRAME t
  have hlen := simulationLoop_length cfg cfg.SIMULATION_STEPS_PER_FRAME t
  have hcnt := simulationLoop_countDispatch cfg cfg.SIMULATION_STEPS_PER_FRAME t
  have hpre : ∀ (a b c : GLCommand),
      ([a, b, c] ++ (simulationLoop cfg cfg.SIMULATION_STEPS_PER_FRAME t).2).length
        = 3 + 5 * cfg.SIMULATION_STEPS_PER_FRAME := by
    intro a b c
    simp only [List.length_append, hlen, List.length_cons, List.length_nil]
  refine ⟨?_, ?_, ?_, ?_, ?_, ?_, ?_, ?_⟩
  · simp [renderFrame, List.countP_append, hcnt, List.countP_cons, GLCommand.isDispatch]
  · intro i x y z h
    simp only [renderFrame] at h ⊢
    by_cases h1 : i < 3
    · interval_cases i <;> simp at h
    by_cases h2 : i < 3 + 5 * cfg.SIMULATION_STEPS_PER_FRAME
    · rw [List.getElem?_append_left (by rw [hpre]; exact h2),
        List.getElem?_append_right (by simp; omega)] at h
      obtain ⟨h3, h4⟩ := simulationLoop_dispatch cfg _ t _ x y z h
      simp only [List.length_cons, List.length_nil] at h3 h4
      refine ⟨?_, by omega⟩
      rw [List.getElem?_append_left (by rw [hpre]; omega),
        List.getElem?_append_right (by simp; omega), ← h4]
      congr 1
      simp only [List.length_cons, List.length_nil]
      omega
    · rw [List.getElem?_append_right (by rw [hpre]; omega), hpre] at h
      exfalso
      generalize i - (3 + 5 * cfg.SIMULATION_STEPS_PER_FRAME) = j at h
      by_cases hj : j < 16
      · interval_cases j <;> simp at h
      · rw [List.getElem?_eq_none (by simp; omega)] at h
        exact Option.noConfusion h
  · simp only [renderFrame]
    rw [List.getElem?_append_right (by rw [hpre]), hpre]
    simp
  · simp [renderFrame, List.count_append, ho2, List.count_cons]
  · simp only [renderFrame]
    rw [List.getElem?_append_right (by rw [hpre]; omega), hpre]
    simp
  · simp [renderFrame, List.countP_append, ho1, List.countP_cons, GLCommand.isTexBuffer]
  · simp only [renderFrame]
    rw [List.getElem?_append_right (by rw [hpre]; omega), hpre]
    simp
  · simp [renderFrame, List.count_append, ho3, List.count_cons]

/-! ## The initialisation loop -/

theorem sizeT_of_lt {n : Nat} (h : n < 2 ^ 64) : sizeT n = n := Nat.mod_eq_of_lt h

theorem lt_of_le_allocLimit {n capacity : Nat} (h : n ≤ allocLimit capacity) : n < 2 ^ 64 := by
  have h1 : allocLimit capacity ≤ VECTOR_MAX_SIZE := Nat.min_le_right _ _
  have h2 : VECTOR_MAX_SIZE < 2 ^ 64 := by decide
  omega

theorem cellValues_length (cfg : Config) (width height i : Nat) :
    (cellValues cfg width height i).length = 5 := rfl

theorem cellValues_eq (cfg : Config) (width height i : Nat) :
    cellValues cfg width height i
      = [initAngleX cfg width (i % width), initAngleY cfg height (i / width),
          some 0, some 0, some 0] := rfl

theorem flatMap_cellValues_length (cfg : Config) (width height m : Nat) :
    ((List.range m).flatMap (cellValues cfg width height)).length = 5 * m := by
  induction m with
  | zero => simp
  | succ k ih =>
    rw [List.range_succ, List.flatMap_append, List.length_append, ih]
    simp [cellValues_length]
    omega

theorem initCell_append (cfg : Config) (width height m : Nat) (hm : 5 * m + 5 ≤ 2 ^ 64)
    (A B : List FloatVal) (hA : A.length = 5 * m) (z0 z1 z2 z3 z4 : FloatVal) :
    initCell cfg width height (A ++ z0 :: z1 :: z2 :: z3 :: z4 :: B) m
      = A ++ cellValues cfg width height m ++ B := by
  have e : sizeT (m * 5) = A.length := by rw [sizeT_of_lt (by omega), hA]; omega
  have e0 : sizeT (A.length + 0) = A.length + 0 := sizeT_of_lt (by omega)
  have e1 : sizeT (A.length + 1) = A.length + 1 := sizeT_of_lt (by omega)
  have e2 : sizeT (A.length + 2) = A.length + 2 := sizeT_of_lt (by omega)
  have e3 : sizeT (A.length + 3) = A.length + 3 := sizeT_of_lt (by omega)
  have e4 : sizeT (A.length + 4) = A.length + 4 := sizeT_of_lt (by omega)
  simp only [initCell, cellAssignments, List.foldl, assign, e, e0, e1, e2, e3, e4]
  simp [List.set_append_right, cellValues, cellAssignments]

theorem initLoop_upto (cfg : Config) (width height n : Nat) (hn : 5 * n < 2 ^ 64) (m : Nat)
    (hm : m ≤ n) :
    (List.range m).foldl (initCell cfg width height) (List.replicate (5 * n) (some (0 : ℚ)))
      = (List.range m).flatMap (cellValues cfg width height)
          ++ List.replicate (5 * (n - m)) (some (0 : ℚ)) := by
  induction m with
  | zero => simp
  | succ k ih =>
    rw [List.range_succ, List.foldl_append, ih (by omega), List.flatMap_append]
    have hrep : List.replicate (5 * (n - k)) (some (0 : ℚ))
        = some 0 :: some 0 :: some 0 :: some 0 :: some 0
            :: List.replicate (5 * (n - (k + 1))) (some (0 : ℚ)) := by
      have : 5 * (n - k) = 5 * (n - (k + 1)) + 5 := by omega
      rw [this]
      simp [List.replicate_succ]
    rw [hrep]
    simp only [List.foldl_cons, List.foldl_nil, List.flatMap_cons, List.flatMap_nil,
      List.append_nil]
    exact initCell_append cfg width height k (by omega) _ _
      (flatMap_cellValues_length cfg width height k) _ _ _ _ _

/-- Performing the assignments in order is running the loop body for each
index in turn. -/
theorem foldl_initAssignments (cfg : Config) (width height : Nat) (l : List Nat)
    (data : List FloatVal) :
    (l.flatMap (cellAssignments cfg width height)).foldl assign data
      = l.foldl (initCell cfg width height) data := by
  induction l generalizing data with
  | nil => rfl
  | cons i t ih =>
    rw [List.flatMap_cons, List.foldl_append, List.foldl_cons, ih]
    rfl

/-- When the size is within what the vector can allocate, the vector is
produced and is the concatenation of the five values of every index. -/
theorem pendulumData_some (cfg : Config) (capacity : Nat)
    (hfit : 5 * cfg.WIDTH * cfg.HEIGHT ≤ allocLimit capacity) :
    pendulumData cfg capacity = some (recordsInOrder cfg) := by
  have hlt := lt_of_le_allocLimit hfit
  have h' : 5 * (cfg.WIDTH * cfg.HEIGHT) < 2 ^ 64 := by rw [← Nat.mul_assoc]; exact hlt
  have h1 : sizeT (cfg.WIDTH * cfg.HEIGHT) = cfg.WIDTH * cfg.HEIGHT := sizeT_of_lt (by omega)
  have h2 : sizeT (cfg.WIDTH * cfg.HEIGHT * 5) = 5 * (cfg.WIDTH * cfg.HEIGHT) := by
    rw [sizeT_of_lt (by omega)]; omega
  have h3 : 5 * (cfg.WIDTH * cfg.HEIGHT) ≤ allocLimit capacity := by
    rw [← Nat.mul_assoc]; exact hfit
  simp only [pendulumData, h1, h2, vectorOfZeros, if_pos h3, Option.map_some', initAssignments]
  rw [foldl_initAssignments, initLoop_upto cfg _ _ _ h' _ (le_refl _)]
  simp [recordsInOrder]

/-- When the size is above what the vector can allocate, no vector is
produced. -/
theorem pendulumData_none (cfg : Config) (capacity : Nat)
    (h : allocLimit capacity < sizeT (sizeT (cfg.WIDTH * cfg.HEIGHT) * 5)) :
    pendulumData cfg capacity = none := by
  simp only [pendulumData, vectorOfZeros, if_neg (Nat.not_le.2 h), Option.map_none']

/-- Reading the concatenation of five-element blocks. -/
theorem flatMap_cellValues_get (cfg : Config) (width height n i k : Nat) (hi : i < n) (hk : k < 5) :
    ((List.range n).flatMap (cellValues cfg width height))[5 * i + k]?
      = (cellValues cfg width height i)[k]? := by
  induction n with
  | zero => omega
  | succ m ih =>
    rw [List.range_succ, List.flatMap_append]
    by_cases him : i < m
    · rw [List.getElem?_append_left (by rw [flatMap_cellValues_length]; omega)]
      exact ih him
    · have : i = m := by omega
      subst this
      rw [List.getElem?_append_right (by rw [flatMap_cellValues_length]; omega),
        flatMap_cellValues_length]
      simp

theorem recordsInOrder_length (cfg : Config) :
    (recordsInOrder cfg).length = 5 * cfg.WIDTH * cfg.HEIGHT := by
  rw [recordsInOrder, flatMap_cellValues_length, Nat.mul_assoc]

theorem assign_length (data : List FloatVal) (a : Nat × FloatVal) :
    (assign data a).length = data.length := by
  simp [assign]

theorem foldl_assign_length (l : List (Nat × FloatVal)) (data : List FloatVal) :
    (l.foldl assign data).length = data.length := by
  induction l generalizing data with
  | nil => rfl
  | cons a t ih => rw [List.foldl_cons, ih, assign_length]

/-- The length of the vector in general, when it is produced: the wrapped
size it was created with. -/
theorem pendulumData_length_wrapped (cfg : Config) (capacity : Nat) (data : List FloatVal)
    (h : pendulumData cfg capacity = some data) :
    data.length = sizeT (sizeT (cfg.WIDTH * cfg.HEIGHT) * 5) := by
  simp only [pendulumData, vectorOfZeros] at h
  split_ifs at h with hc
  · simp only [Option.map_some', Option.some.injEq] at h
    rw [← h, foldl_assign_length, List.length_replicate]
  · simp at h

theorem initAngleX_eq (cfg : Config) (width col : Nat) (hw : 1 < width) (hz : cfg.ZOOM ≠ 0) :
    initAngleX cfg width col
      = some ((cfg.CENTER_X + (2 * (col : ℚ) / ((width : ℚ) - 1) - 1) / cfg.ZOOM) * PI_DOUBLE) := by
  have h1 : ((width : ℚ) - 1) ≠ 0 := by
    have : (1 : ℚ) < width := by exact_mod_cast hw
    linarith
  simp [initAngleX, fsub, fdiv, fmul, fadd, h1, hz]

theorem initAngleY_eq (cfg : Config) (height row : Nat) (hh : 1 < height) (hz : cfg.ZOOM ≠ 0) :
    initAngleY cfg height row
      = some ((cfg.CENTER_Y + (2 * (row : ℚ) / ((height : ℚ) - 1) - 1) / cfg.ZOOM) * PI_DOUBLE) := by
  have h1 : ((height : ℚ) - 1) ≠ 0 := by
    have : (1 : ℚ) < height := by exact_mod_cast hh
    linarith
  simp [initAngleY, fsub, fdiv, fmul, fadd, h1, hz]

theorem initAngleX_width_one (cfg : Config) (col : Nat) : initAngleX cfg 1 col = none := by
  simp [initAngleX, fsub, fdiv, fmul, fadd]

theorem initAngleY_height_one (cfg : Config) (row : Nat) : initAngleY cfg 1 row = none := by
  simp [initAngleY, fsub, fdiv, fmul, fadd]

theorem cell_index (width height row col : Nat) (hr : row < height) (hc : col < width) :
    row * width + col < width * height ∧ (row * width + col) % width = col ∧
    (row * width + col) / width = row := by
  have hpos : 0 < width := by omega
  refine ⟨?_, ?_, ?_⟩
  · calc row * width + col < row * width + width := by omega
      _ = (row + 1) * width := by ring
      _ ≤ height * width := Nat.mul_le_mul_right _ hr
      _ = width * height := Nat.mul_comm _ _
  · rw [Nat.add_comm, Nat.add_mul_mod_self_right, Nat.mod_eq_of_lt hc]
  · rw [Nat.add_comm, Nat.add_mul_div_right _ _ hpos, Nat.div_eq_of_lt hc, Nat.zero_add]

/-- The five slots of the record of cell `(row, col)`. -/
theorem recordsInOrder_cell (cfg : Config) (row col : Nat) (hr : row < cfg.HEIGHT)
    (hc : col < cfg.WIDTH) :
    (recordsInOrder cfg)[5 * (row * cfg.WIDTH + col) + 0]?
      = some (initAngleX cfg cfg.WIDTH col) ∧
    (recordsInOrder cfg)[5 * (row * cfg.WIDTH + col) + 1]?
      = some (initAngleY cfg cfg.HEIGHT row) ∧
    (recordsInOrder cfg)[5 * (row * cfg.WIDTH + col) + 2]? = some (some 0) ∧
    (recordsInOrder cfg)[5 * (row * cfg.WIDTH + col) + 3]? = some (some 0) ∧
    (recordsInOrder cfg)[5 * (row * cfg.WIDTH + col) + 4]? = some (some 0) := by
  obtain ⟨h1, h2, h3⟩ := cell_index cfg.WIDTH cfg.HEIGHT row col hr hc
  refine ⟨?_, ?_, ?_, ?_, ?_⟩ <;>
  · rw [recordsInOrder, flatMap_cellValues_get cfg _ _ _ _ _ h1 (by omega), cellValues_eq, h2, h3]
    rfl

/-- C1 (as amended): when the buffer size is within what the vector can
allocate, the buffer is produced, slot 0 of the record of cell `(row, col)`
holds the angle computed from the column (X axis), slot 1 the angle computed
from the row (Y axis), slots 2, 3 and 4 hold 0; both angles are the value
`(center + (2*coord/(extent-1) - 1)/zoom) * pi`. -/
theorem initializer_slots (cfg : Config) (capacity : Nat) (hw : 1 < cfg.WIDTH)
    (hh : 1 < cfg.HEIGHT) (hz : cfg.ZOOM ≠ 0)
    (hfit : 5 * cfg.WIDTH * cfg.HEIGHT ≤ allocLimit capacity)
    (row col : Nat) (hr : row < cfg.HEIGHT) (hc : col < cfg.WIDTH) :
    ∃ data, pendulumData cfg capacity = some data ∧
      data[5 * (row * cfg.WIDTH + col) + 0]? = some (initAngleX cfg cfg.WIDTH col) ∧
      initAngleX cfg cfg.WIDTH col
        = some ((cfg.CENTER_X + (2 * (col : ℚ) / ((cfg.WIDTH : ℚ) - 1) - 1) / cfg.ZOOM)
            * PI_DOUBLE) ∧
      data[5 * (row * cfg.WIDTH + col) + 1]? = some (initAngleY cfg cfg.HEIGHT row) ∧
      initAngleY cfg cfg.HEIGHT row
        = some ((cfg.CENTER_Y + (2 * (row : ℚ) / ((cfg.HEIGHT : ℚ) - 1) - 1) / cfg.ZOOM)
            * PI_DOUBLE) ∧
      data[5 * (row * cfg.WIDTH + col) + 2]? = some (some 0) ∧
      data[5 * (row * cfg.WIDTH + col) + 3]? = some (some 0) ∧
      data[5 * (row * cfg.WIDTH + col) + 4]? = some (some 0) := by
  obtain ⟨h0, h1, h2, h3, h4⟩ := recordsInOrder_cell cfg row col hr hc
  exact ⟨_, pendulumData_some cfg capacity hfit, h0, initAngleX_eq cfg _ col hw hz, h1,
    initAngleY_eq cfg _ row hh hz, h2, h3, h4⟩

/-- C1 (witness): the constants of the source, cell `(row 1, col 0)`. -/
theorem initializer_slots_witness :
    (1 < sourceConfig.WIDTH ∧ 1 < sourceConfig.HEIGHT ∧ sourceConfig.ZOOM ≠ 0 ∧
      5 * sourceConfig.WIDTH * sourceConfig.HEIGHT ≤ allocLimit ampleCapacity ∧
      1 < sourceConfig.HEIGHT ∧ 0 < sourceConfig.WIDTH) ∧
    ∃ data, pendulumData sourceConfig ampleCapacity = some data ∧
      data[5 * (1 * sourceConfig.WIDTH + 0) + 0]?
        = some (initAngleX sourceConfig sourceConfig.WIDTH 0) ∧
      data[5 * (1 * sourceConfig.WIDTH + 0) + 1]?
        = some (initAngleY sourceConfig sourceConfig.HEIGHT 1) := by
  obtain ⟨data, hd, h0, -, h1, -⟩ := initializer_slots sourceConfig ampleCapacity (by decide)
    (by decide) (by decide) (by decide) 1 0 (by decide) (by decide)
  exact ⟨by decide, data, hd, h0, h1⟩

/-- C1 (counterexample): with the constants of the source, the record of cell
`(row 1, col 0)` has in slot 0 the angle `-pi` of column 0, which is not the
angle of row 1, and in slot 1 the angle of row 1, which is not the angle of
column 0. -/
theorem slot_order_counterexample :
    ∃ data, pendulumData sourceConfig ampleCapacity = some data ∧
      data[5 * (1 * 800 + 0) + 0]? = some (some (-PI_DOUBLE)) ∧
      data[5 * (1 * 800 + 0) + 0]? ≠ some (initAngleY sourceConfig 800 1) ∧
      data[5 * (1 * 800 + 0) + 1]? ≠ some (initAngleX sourceConfig 800 0) := by
  obtain ⟨h0, h1, -⟩ := recordsInOrder_cell sourceConfig 1 0 (by decide) (by decide)
  have hx : initAngleX sourceConfig 800 0 = some (-PI_DOUBLE) := by
    rw [initAngleX_eq sourceConfig 800 0 (by decide) (by decide)]
    norm_num [sourceConfig]
  have hy : initAngleY sourceConfig 800 1 = some (-(797 / 799) * PI_DOUBLE) := by
    rw [initAngleY_eq sourceConfig 800 1 (by decide) (by decide)]
    norm_num [sourceConfig]
  have e : sourceConfig.WIDTH = 800 := rfl
  have e' : sourceConfig.HEIGHT = 800 := rfl
  rw [e] at h0 h1
  rw [e'] at h1
  refine ⟨_, pendulumData_some sourceConfig ampleCapacity (by decide), ?_, ?_, ?_⟩
  · rw [h0, hx]
  · rw [h0, hx, hy]
    norm_num [PI_DOUBLE]
  · rw [h1, hx, hy]
    norm_num [PI_DOUBLE]

/-- C2 (as amended): with zoom 1 and centre (0,0), when the buffer size is
within what the vector can allocate, slot 0 of the record of cell `(row, col)`
is within `1e-4` of `(2*col/(width-1) - 1)*pi`, and slot 1 is within `1e-4` of
`(2*row/(height-1) - 1)*pi`: the row is not flipped, so the stored Y angle is
the opposite of `(2*(height-1-row)/(height-1) - 1)*pi`. -/
theorem initializer_angles (cfg : Config) (capacity : Nat) (hw : 1 < cfg.WIDTH)
    (hh : 1 < cfg.HEIGHT)
    (hzoom : cfg.ZOOM = 1) (hcx : cfg.CENTER_X = 0) (hcy : cfg.CENTER_Y = 0)
    (hfit : 5 * cfg.WIDTH * cfg.HEIGHT ≤ allocLimit capacity)
    (row col : Nat) (hr : row < cfg.HEIGHT) (hc : col < cfg.WIDTH) :
    ∃ (data : List FloatVal) (x y : ℚ),
      pendulumData cfg capacity = some data ∧
      data[5 * (row * cfg.WIDTH + col) + 0]? = some (some x) ∧
      data[5 * (row * cfg.WIDTH + col) + 1]? = some (some y) ∧
      |x - specAngleX cfg.WIDTH col| ≤ 1 / 10000 ∧
      |y - (2 * (row : ℚ) / ((cfg.HEIGHT : ℚ) - 1) - 1) * PI_DOUBLE| ≤ 1 / 10000 ∧
      y = -specAngleY cfg.HEIGHT row := by
  have hz : cfg.ZOOM ≠ 0 := by rw [hzoom]; exact one_ne_zero
  obtain ⟨h0, h1, -⟩ := recordsInOrder_cell cfg row col hr hc
  rw [initAngleX_eq cfg _ col hw hz] at h0
  rw [initAngleY_eq cfg _ row hh hz] at h1
  have hne : ((cfg.HEIGHT : ℚ) - 1) ≠ 0 := by
    have : (1 : ℚ) < cfg.HEIGHT := by exact_mod_cast hh
    linarith
  refine ⟨_, _, _, pendulumData_some cfg capacity hfit, h0, h1, ?_, ?_, ?_⟩
  · rw [hzoom, hcx]
    simp [specAngleX]
  · rw [hzoom, hcy]
    simp
  · rw [hzoom, hcy, specAngleY]
    field_simp
    ring

/-- C2 (witness): the constants of the source, cell `(row 0, col 799)`. -/
theorem initializer_angles_witness :
    (1 < sourceConfig.WIDTH ∧ 1 < sourceConfig.HEIGHT ∧ sourceConfig.ZOOM = 1 ∧
      sourceConfig.CENTER_X = 0 ∧ sourceConfig.CENTER_Y = 0 ∧
      5 * sourceConfig.WIDTH * sourceConfig.HEIGHT ≤ allocLimit ampleCapacity ∧
      0 < sourceConfig.HEIGHT ∧ 799 < sourceConfig.WIDTH) ∧
    ∃ (data : List FloatVal) (x y : ℚ),
      pendulumData sourceConfig ampleCapacity = some data ∧
      data[5 * (0 * sourceConfig.WIDTH + 799) + 0]? = some (some x) ∧
      data[5 * (0 * sourceConfig.WIDTH + 799) + 1]? = some (some y) ∧
      |x - specAngleX sourceConfig.WIDTH 799| ≤ 1 / 10000 ∧
      |y - (2 * ((0 : Nat) : ℚ) / ((sourceConfig.HEIGHT : ℚ) - 1) - 1) * PI_DOUBLE| ≤ 1 / 10000 ∧
      y = -specAngleY sourceConfig.HEIGHT 0 :=
  ⟨by decide, initializer_angles sourceConfig ampleCapacity (by decide) (by decide) rfl rfl rfl
    (by decide) 0 799 (by decide) (by decide)⟩

/-- C2 (counterexample): with the constants of the source (zoom 1, centre
(0,0), 800 x 800), the record of cell `(row 0, col 0)` holds `-pi` in both
angle slots, while the claimed Y angle `(2*(800-1-0)/(800-1) - 1)*pi` is `pi`:
neither slot is within `1e-4` of it. -/
theorem flipped_angle_counterexample :
    specAngleY 800 0 = PI_DOUBLE ∧
    (∃ data, pendulumData sourceConfig ampleCapacity = some data ∧
      data[5 * (0 * 800 + 0) + 0]? = some (some (-PI_DOUBLE)) ∧
      data[5 * (0 * 800 + 0) + 1]? = some (some (-PI_DOUBLE))) ∧
    ¬ |(-PI_DOUBLE) - specAngleY 800 0| ≤ 1 / 10000 := by
  obtain ⟨h0, h1, -⟩ := recordsInOrder_cell sourceConfig 0 0 (by decide) (by decide)
  have hx : initAngleX sourceConfig 800 0 = some (-PI_DOUBLE) := by
    rw [initAngleX_eq sourceConfig 800 0 (by decide) (by decide)]
    norm_num [sourceConfig]
  have hy : initAngleY sourceConfig 800 0 = some (-PI_DOUBLE) := by
    rw [initAngleY_eq sourceConfig 800 0 (by decide) (by decide)]
    norm_num [sourceConfig]
  have e : sourceConfig.WIDTH = 800 := rfl
  have e' : sourceConfig.HEIGHT = 800 := rfl
  rw [e] at h0 h1
  rw [e'] at h1
  rw [hx] at h0
  rw [hy] at h1
  have hs : specAngleY 800 0 = PI_DOUBLE := by norm_num [specAngleY]
  refine ⟨hs, ⟨_, pendulumData_some sourceConfig ampleCapacity (by decide), h0, h1⟩, ?_⟩
  rw [hs]
  norm_num [PI_DOUBLE, abs_le]

/-- C8 (as amended): the initialisation has no geometry check. When
`width = 1` or `height = 1` (both at least 1, the buffer size within what the
vector can allocate) it produces the vector of `5*width*height` scalars, which
is not empty, and every record holds a non-finite value: slot 0 when
`width = 1` (the result of `0/0`), slot 1 when `height = 1`. -/
theorem initializer_degenerate (cfg : Config) (capacity : Nat)
    (hw : 1 ≤ cfg.WIDTH) (hh : 1 ≤ cfg.HEIGHT) (hdeg : cfg.WIDTH = 1 ∨ cfg.HEIGHT = 1)
    (hfit : 5 * cfg.WIDTH * cfg.HEIGHT ≤ allocLimit capacity) :
    ∃ data, pendulumData cfg capacity = some data ∧
      data.length = 5 * cfg.WIDTH * cfg.HEIGHT ∧ 0 < data.length ∧
      (∀ row col, row < cfg.HEIGHT → col < cfg.WIDTH →
        data[5 * (row * cfg.WIDTH + col) + 0]? = some none ∨
        data[5 * (row * cfg.WIDTH + col) + 1]? = some none) ∧
      (cfg.WIDTH = 1 → ∀ row, row < cfg.HEIGHT →
        data[5 * (row * cfg.WIDTH + 0) + 0]? = some none) ∧
      (cfg.HEIGHT = 1 → ∀ col, col < cfg.WIDTH →
        data[5 * (0 * cfg.WIDTH + col) + 1]? = some none) := by
  have hx : cfg.WIDTH = 1 → ∀ row col, row < cfg.HEIGHT → col < cfg.WIDTH →
      (recordsInOrder cfg)[5 * (row * cfg.WIDTH + col) + 0]? = some none := by
    intro h1 row col hr hc
    have h := (recordsInOrder_cell cfg row col hr hc).1
    rw [h, h1, initAngleX_width_one]
  have hy : cfg.HEIGHT = 1 → ∀ row col, row < cfg.HEIGHT → col < cfg.WIDTH →
      (recordsInOrder cfg)[5 * (row * cfg.WIDTH + col) + 1]? = some none := by
    intro h1 row col hr hc
    have h := (recordsInOrder_cell cfg row col hr hc).2.1
    rw [h, h1, initAngleY_height_one]
  refine ⟨_, pendulumData_some cfg capacity hfit, recordsInOrder_length cfg, ?_, ?_, ?_, ?_⟩
  · rw [recordsInOrder_length]
    have : 0 < cfg.WIDTH * cfg.HEIGHT := Nat.mul_pos hw hh
    rw [Nat.mul_assoc]
    omega
  · intro row col hr hc
    rcases hdeg with h1 | h1
    · exact Or.inl (hx h1 row col hr hc)
    · exact Or.inr (hy h1 row col hr hc)
  · intro h1 row hr
    exact hx h1 row 0 hr (by omega)
  · intro h1 col hc
    exact hy h1 0 col (by omega) hc

/-- C8 (witness): `WIDTH = 1`, `HEIGHT = 2`. -/
theorem initializer_degenerate_witness :
    (1 ≤ narrowConfig.WIDTH ∧ 1 ≤ narrowConfig.HEIGHT ∧
      (narrowConfig.WIDTH = 1 ∨ narrowConfig.HEIGHT = 1) ∧
      5 * narrowConfig.WIDTH * narrowConfig.HEIGHT ≤ allocLimit ampleCapacity) ∧
    ∃ data, pendulumData narrowConfig ampleCapacity = some data ∧
      data.length = 5 * narrowConfig.WIDTH * narrowConfig.HEIGHT ∧ 0 < data.length := by
  obtain ⟨data, hd, hl, hp, -⟩ := initializer_degenerate narrowConfig ampleCapacity (by decide)
    (by decide) (by decide) (by decide)
  exact ⟨by decide, data, hd, hl, hp⟩

/-- C8 (counterexample): with `WIDTH = 1` and `HEIGHT = 2` the initialisation
is not rejected: it produces the vector of 10 scalars shown, whose slot 0 of
record 0 and of record 1 is a non-finite value. -/
theorem degenerate_not_rejected :
    pendulumData narrowConfig ampleCapacity
      = some [none, some (-PI_DOUBLE), some 0, some 0, some 0,
              none, some PI_DOUBLE, some 0, some 0, some 0] := by
  rw [pendulumData_some narrowConfig ampleCapacity (by decide)]
  have e1 : narrowConfig.WIDTH = 1 := rfl
  have e2 : narrowConfig.HEIGHT = 2 := rfl
  have hz : narrowConfig.ZOOM ≠ 0 := by decide
  have hy0 := initAngleY_eq narrowConfig 2 0 (by decide) hz
  have hy1 := initAngleY_eq narrowConfig 2 1 (by decide) hz
  have c : narrowConfig.CENTER_Y = 0 := rfl
  have z : narrowConfig.ZOOM = 1 := rfl
  rw [c, z] at hy0 hy1
  simp only [recordsInOrder, e1, e2, Nat.one_mul, List.range_succ, List.range_zero,
    List.nil_append, List.flatMap_append, List.flatMap_cons, List.flatMap_nil, List.append_nil,
    cellValues_eq, initAngleX_width_one, Nat.mod_one, Nat.div_one, hy0, hy1]
  norm_num

theorem assignedIndices_upto (cfg : Config) (width height m : Nat) (hm : 5 * m < 2 ^ 64) :
    ((List.range m).flatMap (cellAssignments cfg width height)).map Prod.fst
      = List.range (5 * m) := by
  induction m with
  | zero => simp
  | succ k ih =>
    rw [List.range_succ, List.flatMap_append, List.map_append, ih (by omega)]
    have e : sizeT (k * 5) = 5 * k := by rw [sizeT_of_lt (by omega)]; omega
    have e0 : sizeT (5 * k + 0) = 5 * k := sizeT_of_lt (by omega)
    have e1 : sizeT (5 * k + 1) = 5 * k + 1 := sizeT_of_lt (by omega)
    have e2 : sizeT (5 * k + 2) = 5 * k + 2 := sizeT_of_lt (by omega)
    have e3 : sizeT (5 * k + 3) = 5 * k + 3 := sizeT_of_lt (by omega)
    have e4 : sizeT (5 * k + 4) = 5 * k + 4 := sizeT_of_lt (by omega)
    simp only [List.flatMap_cons, List.flatMap_nil, List.append_nil, cellAssignments,
      List.map_cons, List.map_nil, e, e0, e1, e2, e3, e4]
    have : 5 * (k + 1) = 5 * k + 1 + 1 + 1 + 1 + 1 := by omega
    rw [this]
    simp only [List.range_succ, List.append_assoc, List.singleton_append, List.nil_append]
    rfl

/-- The values of the assignments, in order, are the records in order. -/
theorem initAssignments_values (cfg : Config) (width height n : Nat) :
    (initAssignments cfg width height n).map Prod.snd
      = (List.range n).flatMap (cellValues cfg width height) := by
  rw [initAssignments, List.map_flatMap]
  rfl

/-- C9 (as amended): when `5*width*height` is within what the vector can
allocate, the vector is produced with exactly `5*width*height` scalars (at
least one record); every index `i < width*height` decomposes into
`row = i / width < height` and `col = i % width < width` with
`row*width + col = i`; every cell is the decomposition of exactly one index;
the vector is the result of performing the loop's assignments on the vector of
zeros; these assignments go to the positions `0, 1, ..., 5*width*height - 1`,
each once, in increasing order; and the vector holds at each position the
value assigned there. -/
theorem initializer_layout (cfg : Config) (capacity : Nat)
    (hw : 1 ≤ cfg.WIDTH) (hh : 1 ≤ cfg.HEIGHT)
    (hfit : 5 * cfg.WIDTH * cfg.HEIGHT ≤ allocLimit capacity) :
    ∃ data, pendulumData cfg capacity = some data ∧
      data.length = 5 * cfg.WIDTH * cfg.HEIGHT ∧ 0 < data.length ∧
      (∀ i, i < cfg.WIDTH * cfg.HEIGHT →
        i / cfg.WIDTH < cfg.HEIGHT ∧ i % cfg.WIDTH < cfg.WIDTH ∧
        (i / cfg.WIDTH) * cfg.WIDTH + i % cfg.WIDTH = i) ∧
      (∀ row col, row < cfg.HEIGHT → col < cfg.WIDTH →
        ∃! i, i < cfg.WIDTH * cfg.HEIGHT ∧ i / cfg.WIDTH = row ∧ i % cfg.WIDTH = col) ∧
      data = (initAssignments cfg cfg.WIDTH cfg.HEIGHT (cfg.WIDTH * cfg.HEIGHT)).foldl assign
        (List.replicate (5 * cfg.WIDTH * cfg.HEIGHT) (some (0 : ℚ))) ∧
      (initAssignments cfg cfg.WIDTH cfg.HEIGHT (cfg.WIDTH * cfg.HEIGHT)).map Prod.fst
        = List.range (5 * cfg.WIDTH * cfg.HEIGHT) ∧
      assignedIndices cfg = List.range (5 * cfg.WIDTH * cfg.HEIGHT) ∧
      data = (initAssignments cfg cfg.WIDTH cfg.HEIGHT (cfg.WIDTH * cfg.HEIGHT)).map Prod.snd := by
  have hlt := lt_of_le_allocLimit hfit
  have h' : 5 * (cfg.WIDTH * cfg.HEIGHT) < 2 ^ 64 := by rw [← Nat.mul_assoc]; exact hlt
  have h1 : sizeT (cfg.WIDTH * cfg.HEIGHT) = cfg.WIDTH * cfg.HEIGHT := sizeT_of_lt (by omega)
  have hidx := assignedIndices_upto cfg cfg.WIDTH cfg.HEIGHT _ h'
  rw [← Nat.mul_assoc] at hidx
  refine ⟨_, pendulumData_some cfg capacity hfit, recordsInOrder_length cfg, ?_, ?_, ?_, ?_,
    hidx, ?_, ?_⟩
  · rw [recordsInOrder_length, Nat.mul_assoc]
    have : 0 < cfg.WIDTH * cfg.HEIGHT := Nat.mul_pos hw hh
    omega
  · intro i hi
    refine ⟨Nat.div_lt_of_lt_mul hi, Nat.mod_lt _ hw, ?_⟩
    rw [Nat.mul_comm]
    exact Nat.div_add_mod i cfg.WIDTH
  · intro row col hr hc
    obtain ⟨h1, h2, h3⟩ := cell_index cfg.WIDTH cfg.HEIGHT row col hr hc
    refine ⟨row * cfg.WIDTH + col, ⟨h1, h3, h2⟩, ?_⟩
    rintro j ⟨-, hj1, hj2⟩
    rw [← hj1, ← hj2, Nat.mul_comm]
    exact (Nat.div_add_mod j cfg.WIDTH).symm
  · rw [initAssignments, foldl_initAssignments, Nat.mul_assoc,
      initLoop_upto cfg _ _ _ h' _ (le_refl _)]
    simp [recordsInOrder]
  · rw [assignedIndices, h1]
    exact hidx
  · rw [initAssignments_values]
    rfl

/-- C9 (witness): the constants of the source. -/
theorem initializer_layout_witness :
    (1 ≤ sourceConfig.WIDTH ∧ 1 ≤ sourceConfig.HEIGHT ∧
      5 * sourceConfig.WIDTH * sourceConfig.HEIGHT ≤ allocLimit ampleCapacity) ∧
    ∃ data, pendulumData sourceConfig ampleCapacity = some data ∧
      data.length = 5 * sourceConfig.WIDTH * sourceConfig.HEIGHT ∧
      assignedIndices sourceConfig = List.range (5 * sourceConfig.WIDTH * sourceConfig.HEIGHT) := by
  obtain ⟨data, hd, hl, -, -, -, -, -, hi, -⟩ := initializer_layout sourceConfig ampleCapacity
    (by decide) (by decide) (by decide)
  exact ⟨by decide, data, hd, hl, hi⟩

/-- C9 (counterexample): with `WIDTH = HEIGHT = 2^30` the vector would need
`5 * 2^60` scalars, above the limit of a vector: its constructor throws and no
buffer is produced, whatever the allocator. With `WIDTH = 2^62 + 800` and
`HEIGHT = 4` the product `width * height` wraps to 3200 in `size_t`: the
vector has 16000 scalars, not `5*width*height`, and the cell `(row 1, col 0)`
has no record in it. -/
theorem wrapped_size_counterexample :
    (1 ≤ bigConfig.WIDTH ∧ 1 ≤ bigConfig.HEIGHT ∧
      5 * bigConfig.WIDTH * bigConfig.HEIGHT < 2 ^ 64 ∧
      ∀ capacity, pendulumData bigConfig capacity = none) ∧
    (1 ≤ wrapConfig.WIDTH ∧ 1 ≤ wrapConfig.HEIGHT ∧
      ∃ data, pendulumData wrapConfig ampleCapacity = some data ∧
        data.length = 16000 ∧
        data.length ≠ 5 * wrapConfig.WIDTH * wrapConfig.HEIGHT ∧
        data[5 * (1 * wrapConfig.WIDTH + 0)]? = none) := by
  refine ⟨⟨by decide, by decide, by decide, ?_⟩, by decide, by decide, ?_⟩
  · intro capacity
    apply pendulumData_none
    have h1 : allocLimit capacity ≤ VECTOR_MAX_SIZE := Nat.min_le_right _ _
    have h2 : VECTOR_MAX_SIZE < sizeT (sizeT (bigConfig.WIDTH * bigConfig.HEIGHT) * 5) := by
      decide
    omega
  · have hs : sizeT (sizeT (wrapConfig.WIDTH * wrapConfig.HEIGHT) * 5) = 16000 := by decide
    have hsome : ∃ data, pendulumData wrapConfig ampleCapacity = some data := by
      simp only [pendulumData, hs, vectorOfZeros]
      rw [if_pos (by decide)]
      exact ⟨_, rfl⟩
    obtain ⟨data, hd⟩ := hsome
    have hl : data.length = 16000 := by
      rw [pendulumData_length_wrapped wrapConfig ampleCapacity data hd, hs]
    refine ⟨data, hd, hl, ?_, ?_⟩
    · rw [hl]
      decide
    · rw [List.getElem?_eq_none]
      rw [hl]
      decide

/-! ## The mouse callback -/

theorem doubleToSizeT_of_nonneg (v : ℚ) (h0 : 0 ≤ v) (hlt : ⌊v⌋₊ < 2 ^ 64) :
    doubleToSizeT v = some ⌊v⌋₊ := by
  have ht : truncToInt v = ⌊v⌋ := by simp [truncToInt, h0]
  have hc : ((⌊v⌋₊ : Nat) : Int) = ⌊v⌋ := Int.natCast_floor_eq_floor h0
  have h1 : 0 ≤ ⌊v⌋ := Int.floor_nonneg.2 h0
  have h2 : ⌊v⌋ < 2 ^ 64 := by
    rw [← hc]
    exact_mod_cast hlt
  rw [doubleToSizeT, ht, if_pos ⟨h1, h2⟩, Int.floor_toNat]

theorem normalized_abs_le_one (extent coord : Nat) (he : 1 < extent) (hc : coord < extent) :
    |2 * (coord : ℚ) / ((extent : ℚ) - 1) - 1| ≤ 1 := by
  have hd : (0 : ℚ) < (extent : ℚ) - 1 := by
    have : (1 : ℚ) < extent := by exact_mod_cast he
    linarith
  have hle : (coord : ℚ) ≤ (extent : ℚ) - 1 := by
    have : coord + 1 ≤ extent := hc
    have : ((coord + 1 : Nat) : ℚ) ≤ extent := by exact_mod_cast this
    push_cast at this
    linarith
  have h0 : (0 : ℚ) ≤ 2 * (coord : ℚ) / ((extent : ℚ) - 1) :=
    div_nonneg (by positivity) hd.le
  have h2 : 2 * (coord : ℚ) / ((extent : ℚ) - 1) ≤ 2 := by
    rw [div_le_iff₀ hd]
    linarith
  rw [abs_le]
  constructor <;> linarith

theorem pi_constants_close (n : ℚ) (hn : |n| ≤ 1) :
    |n * PI_FLOAT - n * PI_DOUBLE| ≤ 1 / 10000 := by
  rw [abs_le] at hn ⊢
  obtain ⟨h1, h2⟩ := hn
  simp only [PI_FLOAT, PI_DOUBLE]
  constructor <;> linarith

theorem floor_natCast_rat (n : Nat) : ⌊(n : ℚ)⌋₊ = n := Nat.floor_natCast n

theorem doubleToSizeT_natCast (n : Nat) (h : n < 2 ^ 64) : doubleToSizeT (n : ℚ) = some n := by
  have := doubleToSizeT_of_nonneg (n : ℚ) (Nat.cast_nonneg n) (by rw [floor_natCast_rat]; exact h)
  rwa [floor_natCast_rat] at this

/-- The index reported for a press at a cursor position with natural
coordinates `(x, y)`, `y` not above the window height `h`. -/
theorem callback_index_nat (cfg : Config) (width : Int) (h x y : Nat)
    (hpos : 0 < cfg.WIDTH) (hy : y ≤ h) (hfit : (h - y) * cfg.WIDTH + x < 2 ^ 64) :
    ∃ r, mouse_button_callback cfg GLFW_MOUSE_BUTTON_LEFT GLFW_PRESS x y width h = some r ∧
      r.screenX = x ∧ r.screenY = ((h - y : Nat) : ℚ) ∧
      r.pendulumIndex = some ((h - y) * cfg.WIDTH + x) := by
  have e : (((h : Int) : ℚ)) - (y : ℚ) = ((h - y : Nat) : ℚ) := by
    rw [Nat.cast_sub hy]
    simp
  have hrow : h - y < 2 ^ 64 := by
    have : h - y ≤ (h - y) * cfg.WIDTH := Nat.le_mul_of_pos_right _ hpos
    omega
  have hcol : x < 2 ^ 64 := by omega
  have e1 : sizeT ((h - y) * cfg.WIDTH) = (h - y) * cfg.WIDTH := sizeT_of_lt (by omega)
  refine ⟨_, if_pos ⟨rfl, rfl⟩, rfl, e, ?_⟩
  simp only [e, doubleToSizeT_natCast _ hrow, doubleToSizeT_natCast _ hcol, e1,
    sizeT_of_lt hfit]

/-- C6 (as amended): a press of the left button at a cursor position whose
flipped coordinates are non-negative reports
`pendulumIndex = floor(screenY) * WIDTH + floor(screenX)`, where `WIDTH` is the
compile-time width of the simulation and not the window width used to
normalise the cursor (the index fitting `size_t`). -/
theorem picker_index_formula (cfg : Config) (width height : Int) (cursorX cursorY : ℚ)
    (hpos : 0 < cfg.WIDTH) (hx : 0 ≤ cursorX) (hy : 0 ≤ (height : ℚ) - cursorY)
    (hfit : ⌊(height : ℚ) - cursorY⌋₊ * cfg.WIDTH + ⌊cursorX⌋₊ < 2 ^ 64) :
    ∃ r, mouse_button_callback cfg GLFW_MOUSE_BUTTON_LEFT GLFW_PRESS cursorX cursorY width height
        = some r ∧
      r.screenX = cursorX ∧ r.screenY = (height : ℚ) - cursorY ∧
      r.pendulumIndex = some (⌊r.screenY⌋₊ * cfg.WIDTH + ⌊r.screenX⌋₊) := by
  have hrow : ⌊(height : ℚ) - cursorY⌋₊ < 2 ^ 64 := by
    have : ⌊(height : ℚ) - cursorY⌋₊ ≤ ⌊(height : ℚ) - cursorY⌋₊ * cfg.WIDTH :=
      Nat.le_mul_of_pos_right _ hpos
    omega
  have hcol : ⌊cursorX⌋₊ < 2 ^ 64 := by omega
  have e1 : sizeT (⌊(height : ℚ) - cursorY⌋₊ * cfg.WIDTH) = ⌊(height : ℚ) - cursorY⌋₊ * cfg.WIDTH :=
    sizeT_of_lt (by omega)
  refine ⟨_, if_pos ⟨rfl, rfl⟩, rfl, rfl, ?_⟩
  simp only [doubleToSizeT_of_nonneg _ hx hcol, doubleToSizeT_of_nonneg _ hy hrow, e1,
    sizeT_of_lt hfit]

/-- C6 (witness): the scenario `WIDTH = HEIGHT = 4` with a window of 4 x 4 and
a press whose flipped position is `(2, 2)`: the index is `2*4 + 2 = 10`. -/
theorem picker_index_formula_witness :
    (0 < scenarioConfig.WIDTH ∧ (0 : ℚ) ≤ 2 ∧ (0 : ℚ) ≤ ((4 : Int) : ℚ) - 2) ∧
    ∃ r, mouse_button_callback scenarioConfig GLFW_MOUSE_BUTTON_LEFT GLFW_PRESS 2 2 4 4 = some r ∧
      r.screenX = 2 ∧ r.screenY = 2 ∧ r.pendulumIndex = some 10 := by
  have e : (((4 : Int) : ℚ)) - 2 = ((2 : Nat) : ℚ) := by norm_num
  have e2 : (2 : ℚ) = ((2 : Nat) : ℚ) := by norm_num
  have f1 : ⌊(((4 : Int) : ℚ)) - 2⌋₊ = 2 := by rw [e]; exact floor_natCast_rat 2
  have f2 : ⌊(2 : ℚ)⌋₊ = 2 := by rw [e2]; exact floor_natCast_rat 2
  refine ⟨⟨by decide, by norm_num, by norm_num⟩, ?_⟩
  obtain ⟨r, h1, h2, h3, h4⟩ := picker_index_formula scenarioConfig 4 4 2 2 (by decide) (by norm_num)
    (by norm_num) (by rw [f1, f2]; decide)
  have h3' : r.screenY = 2 := by rw [h3]; norm_num
  refine ⟨r, h1, h2, h3', ?_⟩
  rw [h4, h3', h2, f2]
  rfl

/-- C6 (counterexample): with the constants of the source (`WIDTH = 800`) and
a window of 400 x 300, a press whose flipped position is `(2, 2)` reports the
index `2*800 + 2 = 1602`, not `2*400 + 2` computed with the window width that
normalises the cursor. -/
theorem window_width_counterexample :
    ∃ r, mouse_button_callback sourceConfig GLFW_MOUSE_BUTTON_LEFT GLFW_PRESS 2 298 400 300
        = some r ∧
      r.screenX = 2 ∧ r.screenY = 2 ∧ r.pendulumIndex = some 1602 ∧
      r.pendulumIndex ≠ some (⌊r.screenY⌋₊ * 400 + ⌊r.screenX⌋₊) := by
  obtain ⟨r, h1, h2, h3, h4⟩ := callback_index_nat sourceConfig 400 300 2 298 (by decide)
    (by decide) (by decide)
  have h2' : r.screenX = 2 := by rw [h2]; norm_num
  have h3' : r.screenY = 2 := by rw [h3]; norm_num
  have f2 : ⌊(2 : ℚ)⌋₊ = 2 := by
    rw [show (2 : ℚ) = ((2 : Nat) : ℚ) by norm_num]; exact floor_natCast_rat 2
  have h4' : r.pendulumIndex = some 1602 := by rw [h4]; rfl
  refine ⟨r, ?_, h2', h3', h4', ?_⟩
  · rw [← h1]; norm_num
  · rw [h4', h3', h2', f2]
    decide

/-- C10 (failing input): with the constants of the source and a window of
800 x 800, a press at the cursor position `(0, 0)` (top-left pixel) has the
flipped ordinate 800: the normalised ordinate `801/799` lies above 1, the row
is 800, not below the height, and the index reported is `800*800 = 640000`,
one past the last record of the State Buffer. -/
theorem top_row_click_out_of_range :
    mouse_button_callback sourceConfig GLFW_MOUSE_BUTTON_LEFT GLFW_PRESS 0 0 800 800
      = some { screenX := 0, screenY := 800, worldX := some (-1), worldY := some (801 / 799),
               angleX := some (-PI_FLOAT), angleY := some (801 / 799 * PI_FLOAT),
               pendulumIndex := some 640000 } ∧
    ¬ (⌊(800 : ℚ)⌋₊ < sourceConfig.HEIGHT) ∧
    ¬ (640000 < sourceConfig.WIDTH * sourceConfig.HEIGHT) ∧
    (∃ data, pendulumData sourceConfig ampleCapacity = some data ∧
      data.length = 3200000 ∧ data[5 * 640000]? = none) ∧
    (∀ capacity data, pendulumData sourceConfig capacity = some data →
      data[5 * 640000]? = none) ∧
    (1 : ℚ) < 801 / 799 := by
  have f0 : doubleToSizeT 0 = some 0 := by
    have := doubleToSizeT_natCast 0 (by decide)
    rwa [Nat.cast_zero] at this
  have f800 : doubleToSizeT 800 = some 800 := by
    have := doubleToSizeT_natCast 800 (by decide)
    rwa [show ((800 : Nat) : ℚ) = 800 by norm_num] at this
  have f : ⌊(800 : ℚ)⌋₊ = 800 := by
    rw [show (800 : ℚ) = ((800 : Nat) : ℚ) by norm_num]; exact floor_natCast_rat 800
  have hs : sizeT (sizeT (sourceConfig.WIDTH * sourceConfig.HEIGHT) * 5) = 3200000 := by decide
  refine ⟨?_, ?_, by decide, ?_, ?_, by norm_num⟩
  · rw [mouse_button_callback, if_pos ⟨rfl, rfl⟩]
    norm_num [f0, f800, fsub, fdiv, fmul, fadd, sourceConfig, sizeT]
  · rw [f]; decide
  · have hd := pendulumData_some sourceConfig ampleCapacity (by decide)
    have hl := pendulumData_length_wrapped sourceConfig ampleCapacity _ hd
    rw [hs] at hl
    exact ⟨_, hd, hl, List.getElem?_eq_none (le_of_eq hl)⟩
  · intro capacity data hd
    have hl := pendulumData_length_wrapped sourceConfig capacity data hd
    rw [hs] at hl
    exact List.getElem?_eq_none (le_of_eq hl)

/-- C7: with zoom 1, centre (0,0) and the window of the simulation's size, a
press whose flipped position is the pixel `(col, row)` reports angles within
`1e-4` of the angles the initialisation computes for column `col` and row
`row`, which are the values it stores in the record of the cell when the
buffer size fits `size_t`. -/
theorem picker_matches_initializer (cfg : Config) (hw : 1 < cfg.WIDTH) (hh : 1 < cfg.HEIGHT)
    (hzoom : cfg.ZOOM = 1) (hcx : cfg.CENTER_X = 0) (hcy : cfg.CENTER_Y = 0)
    (row col : Nat) (hr : row < cfg.HEIGHT) (hc : col < cfg.WIDTH) :
    ∃ r ax ay ix iy,
      mouse_button_callback cfg GLFW_MOUSE_BUTTON_LEFT GLFW_PRESS (col : ℚ)
        ((cfg.HEIGHT : ℚ) - row) (cfg.WIDTH : Int) (cfg.HEIGHT : Int) = some r ∧
      r.screenX = col ∧ r.screenY = row ∧
      r.angleX = some ax ∧ r.angleY = some ay ∧
      ax = (2 * (col : ℚ) / ((cfg.WIDTH : ℚ) - 1) - 1) * PI_FLOAT ∧
      initAngleX cfg cfg.WIDTH col = some ix ∧ initAngleY cfg cfg.HEIGHT row = some iy ∧
      |ax - ix| ≤ 1 / 10000 ∧ |ay - iy| ≤ 1 / 10000 ∧
      (∀ capacity, 5 * cfg.WIDTH * cfg.HEIGHT ≤ allocLimit capacity →
        ∃ data, pendulumData cfg capacity = some data ∧
          data[5 * (row * cfg.WIDTH + col) + 0]? = some (some ix) ∧
          data[5 * (row * cfg.WIDTH + col) + 1]? = some (some iy)) := by
  have hz : cfg.ZOOM ≠ 0 := by rw [hzoom]; exact one_ne_zero
  have hwq : ((cfg.WIDTH : ℚ) - 1) ≠ 0 := by
    have : (1 : ℚ) < cfg.WIDTH := by exact_mod_cast hw
    linarith
  have hhq : ((cfg.HEIGHT : ℚ) - 1) ≠ 0 := by
    have : (1 : ℚ) < cfg.HEIGHT := by exact_mod_cast hh
    linarith
  have hix := initAngleX_eq cfg cfg.WIDTH col hw hz
  have hiy := initAngleY_eq cfg cfg.HEIGHT row hh hz
  rw [hzoom, hcx] at hix
  rw [hzoom, hcy] at hiy
  refine ⟨_, (2 * (col : ℚ) / ((cfg.WIDTH : ℚ) - 1) - 1) * PI_FLOAT,
    (2 * (row : ℚ) / ((cfg.HEIGHT : ℚ) - 1) - 1) * PI_FLOAT, _, _, if_pos ⟨rfl, rfl⟩, rfl,
    ?_, ?_, ?_, rfl, hix, hiy, ?_, ?_, ?_⟩
  · simp
  · simp [fsub, fdiv, fmul, fadd, hwq, hzoom, hcx]
  · simp [fsub, fdiv, fmul, fadd, hhq, hzoom, hcy]
  · have := pi_constants_close _ (normalized_abs_le_one cfg.WIDTH col hw hc)
    simpa using this
  · have := pi_constants_close _ (normalized_abs_le_one cfg.HEIGHT row hh hr)
    simpa using this
  · intro capacity hfit
    obtain ⟨h0, h1, -⟩ := recordsInOrder_cell cfg row col hr hc
    rw [initAngleX_eq cfg cfg.WIDTH col hw hz, hzoom, hcx] at h0
    rw [initAngleY_eq cfg cfg.HEIGHT row hh hz, hzoom, hcy] at h1
    exact ⟨_, pendulumData_some cfg capacity hfit, h0, h1⟩

/-- C7 (witness): the scenario `WIDTH = HEIGHT = 4`, press at the flipped
position `(2, 2)`: `angleX` is `(2*2/3 - 1)` times the callback's pi. -/
theorem picker_matches_initializer_witness :
    (1 < scenarioConfig.WIDTH ∧ 1 < scenarioConfig.HEIGHT ∧ scenarioConfig.ZOOM = 1 ∧
      scenarioConfig.CENTER_X = 0 ∧ scenarioConfig.CENTER_Y = 0 ∧
      2 < scenarioConfig.HEIGHT ∧ 2 < scenarioConfig.WIDTH) ∧
    ∃ r ax ay ix iy,
      mouse_button_callback scenarioConfig GLFW_MOUSE_BUTTON_LEFT GLFW_PRESS ((2 : Nat) : ℚ)
        ((scenarioConfig.HEIGHT : ℚ) - (2 : Nat)) (scenarioConfig.WIDTH : Int)
        (scenarioConfig.HEIGHT : Int) = some r ∧
      r.screenX = (2 : Nat) ∧ r.screenY = (2 : Nat) ∧
      r.angleX = some ax ∧ r.angleY = some ay ∧
      ax = (2 * ((2 : Nat) : ℚ) / ((scenarioConfig.WIDTH : ℚ) - 1) - 1) * PI_FLOAT ∧
      initAngleX scenarioConfig scenarioConfig.WIDTH 2 = some ix ∧
      initAngleY scenarioConfig scenarioConfig.HEIGHT 2 = some iy ∧
      |ax - ix| ≤ 1 / 10000 ∧ |ay - iy| ≤ 1 / 10000 ∧
      (∀ capacity, 5 * scenarioConfig.WIDTH * scenarioConfig.HEIGHT ≤ allocLimit capacity →
        ∃ data, pendulumData scenarioConfig capacity = some data ∧
          data[5 * (2 * scenarioConfig.WIDTH + 2) + 0]? = some (some ix) ∧
          data[5 * (2 * scenarioConfig.WIDTH + 2) + 1]? = some (some iy)) :=
  ⟨by decide, picker_matches_initializer scenarioConfig (by decide) (by decide) rfl rfl rfl 2 2
    (by decide) (by decide)⟩

end DoublePendulum
